import Mathlib

/-!
Verification of the twitter-bot repository (src/main.py and src/app.py).

The two files contain near-identical logic: `load_state` / `save_state`
(a one-field JSON state file holding `last_mention_id`), `handle_mentions`
(the per-cycle mention processor), and a poll loop (`main` in main.py,
`bot_loop` in app.py).  We embed that logic as pure Lean functions.

External effects are modelled explicitly:
* The tweepy client is an oracle `Env` assigning an `ApiOutcome` to each
  `like` and `create_tweet` (reply) call, keyed by the mention id passed
  to the call, exactly as the source invokes `client.like(tw.id)` and
  `client.create_tweet(..., in_reply_to_tweet_id=tw.id)`.
* The mention fetch (`client.get_users_mentions`) is a `FetchResult`:
  either a rate-limit exception (tweepy TooManyRequests, whose payload
  carries an optional reset time that the code never reads), some other
  exception, or a page of tweets in the API order (newest first, so
  `newest_id = tweets[0].id` in the source).
* The state dict is reduced to its only used field: `last_mention_id`,
  an `Option Nat` (`state.get("last_mention_id")` in the source).
  Python truthiness of that value (`if since_id:`,
  `if first_run and not since_id:`) is `optTruthy`.
* `time.sleep` calls for rate limits are recorded in a log (the constant
  60-second sleeps of the source); the 2-3 second random jitter sleeps
  carry no control-flow information and are not recorded.
-/

/-- Outcome of a single tweepy API call (`client.like` or
`client.create_tweet`): success, a `tweepy.errors.TooManyRequests`
exception (carrying the optional rate-limit reset time from the response
headers, which the handlers in the source discard), or any other
exception. -/
inductive ApiOutcome where
  | ok : ApiOutcome
  | rateLimited (resetIn : Option Nat) : ApiOutcome
  | otherError : ApiOutcome
deriving DecidableEq, Repr

/-- A mention tweet as consumed by `handle_mentions`: `tw.id` and
`tw.author_id`.  (`created_at` and the resolved username only affect log
and reply text, not control flow, and are omitted.) -/
structure Mention where
  id : Nat
  authorId : Nat
deriving DecidableEq, Repr

/-- The oracle for the tweepy client calls made inside the action loop,
keyed by the mention id passed to the call. -/
structure Env where
  likeRes : Nat → ApiOutcome
  replyRes : Nat → ApiOutcome

/-- Result of `client.get_users_mentions`: rate-limit exception (with the
unread optional reset time), any other exception, or a page of tweets in
API order (newest first).  An empty page models `not resp.data`. -/
inductive FetchResult where
  | rateLimited (resetIn : Option Nat) : FetchResult
  | error : FetchResult
  | page (tweets : List Mention) : FetchResult
deriving DecidableEq

/-- Python truthiness of the loaded `last_mention_id`
(`since_id = state.get("last_mention_id")`; `None` and `0` are falsy). -/
def optTruthy : Option Nat → Bool
  | none => false
  | some n => n != 0

/-- Observable trace of one `handle_mentions` cycle: which mentions had a
`client.like` call, which had a `client.create_tweet` reply call (in call
order), the final value of the `actions` counter, and the rate-limit
sleeps performed (`time.sleep(60)` in the source). -/
structure RunLog where
  likeAttempts : List Mention
  replyAttempts : List Mention
  actions : Nat
  pauses : List Nat
deriving DecidableEq, Repr

/-- The empty trace. -/
def RunLog.empty (acts : Nat) : RunLog :=
  { likeAttempts := [], replyAttempts := [], actions := acts, pauses := [] }

/-- The `for tw in reversed(tweets)` loop of `handle_mentions`
(src/main.py lines 121-159, src/app.py lines 117-149), taking the tweets
already in processing order (oldest first) and the current `actions`
counter.  Faithful control flow:
* `if actions >= MAX_ACTIONS_PER_RUN: break`;
* `if str(tw.author_id) == str(me_id): continue` (both are ints, so
  string equality coincides with numeric equality);
* like: on `TooManyRequests` sleep 60 and `break`; on any other
  exception fall through to the reply anyway;
* reply: on success `actions += 1`; on `TooManyRequests` sleep 60 and
  `break`; on any other exception continue with the next mention. -/
def runActions (env : Env) (meId maxActions : Nat) :
    List Mention → Nat → RunLog
  | [], acts => RunLog.empty acts
  | tw :: rest, acts =>
    if acts ≥ maxActions then
      RunLog.empty acts
    else if tw.authorId = meId then
      runActions env meId maxActions rest acts
    else
      match env.likeRes tw.id with
      | ApiOutcome.rateLimited _ =>
        { likeAttempts := [tw], replyAttempts := [], actions := acts,
          pauses := [60] }
      | _ =>
        match env.replyRes tw.id with
        | ApiOutcome.ok =>
          let r := runActions env meId maxActions rest (acts + 1)
          { likeAttempts := tw :: r.likeAttempts,
            replyAttempts := tw :: r.replyAttempts,
            actions := r.actions, pauses := r.pauses }
        | ApiOutcome.rateLimited _ =>
          { likeAttempts := [tw], replyAttempts := [tw], actions := acts,
            pauses := [60] }
        | ApiOutcome.otherError =>
          let r := runActions env meId maxActions rest acts
          { likeAttempts := tw :: r.likeAttempts,
            replyAttempts := tw :: r.replyAttempts,
            actions := r.actions, pauses := r.pauses }

/-- One cycle of `handle_mentions` (src/main.py lines 79-163, src/app.py
lines 77-152).  Input `st` is the loaded `last_mention_id`; `fetch` is
the outcome of `client.get_users_mentions`.  Returns the `save_state`
write, if any (`some v` means the cycle wrote `last_mention_id = v`;
`none` means no `save_state` call happened), paired with the action
trace.  Branches, in source order:
* fetch `TooManyRequests`: sleep 60, return (no write, no actions);
* fetch other exception: return (no write, no actions);
* `not resp.data`: return (no write, no actions);
* `newest_id = tweets[0].id`;
* first-run suppression: `if first_run and not since_id`, write
  `newest_id` and return with no actions;
* otherwise run the action loop on `reversed(tweets)` starting at
  `actions = 0`, then unconditionally write `newest_id`. -/
def handle_mentions (env : Env) (fetch : FetchResult) (st : Option Nat)
    (meId maxActions : Nat) (first_run : Bool) :
    Option Nat × RunLog :=
  match fetch with
  | FetchResult.rateLimited _ =>
    (none, { likeAttempts := [], replyAttempts := [], actions := 0,
             pauses := [60] })
  | FetchResult.error => (none, RunLog.empty 0)
  | FetchResult.page [] => (none, RunLog.empty 0)
  | FetchResult.page (t0 :: rest) =>
    if first_run && !optTruthy st then
      (some t0.id, RunLog.empty 0)
    else
      (some t0.id, runActions env meId maxActions ((t0 :: rest).reverse) 0)

/-- State-file contents seen by `load_state`: the path does not exist,
reading raises (caught by the `try`), or it yields a string. -/
inductive FileState where
  | absent : FileState
  | unreadable : FileState
  | content (s : String) : FileState
deriving DecidableEq

/-- Model of `load_state` (src/main.py lines 20-27, src/app.py lines
20-27), with `json.loads` followed by `.get("last_mention_id")`
abstracted as the oracle `parse` (an external library call: `none`
models a raised parse error, `some d` the `last_mention_id` field of
the parsed record).  Both `p.read_text()` and `json.loads` sit inside
the `try`, so an unreadable or malformed file yields the empty dict
(whose `last_mention_id` lookup is `none`); a missing file yields the
empty dict too. -/
def load_state (parse : String → Option (Option Nat)) :
    FileState → Option Nat
  | FileState.absent => none
  | FileState.unreadable => none
  | FileState.content s =>
    match parse s with
    | none => none
    | some d => d

/-- One iteration of the flag state in both poll loops.  The body of the
`while True` sits in a `try`: when the `handle_mentions` call of the tick
raises (for example `client.get_me()` inside it hits the global rate
limit), control jumps to the `except` clauses, the assignment
`first_loop = False` / `first = False` that follows the call is skipped,
and the flag keeps its value; when the tick does not raise, the
assignment runs and the flag becomes false.  `raised` is whether the
tick raised. -/
def nextFlag (raised : Bool) (b : Bool) : Bool :=
  if raised then b else false

/-- `first_run` flag passed by `main` in src/main.py on tick `n`, given
which ticks raise: `first_loop = False` before the loop (line 178), then
`nextFlag` per iteration (lines 180-191). -/
def mainFlag (raises : Nat → Bool) : Nat → Bool
  | 0 => false
  | n + 1 => nextFlag (raises n) (mainFlag raises n)

/-- `first_run` flag passed by `bot_loop` in src/app.py on tick `n`,
given which ticks raise: `first = True` before the loop (line 167), then
`nextFlag` per iteration (lines 168-180). -/
def botLoopFlag (raises : Nat → Bool) : Nat → Bool
  | 0 => true
  | n + 1 => nextFlag (raises n) (botLoopFlag raises n)

/-- A client oracle on which every like and reply call succeeds. -/
def envAllOk : Env :=
  { likeRes := fun _ => ApiOutcome.ok, replyRes := fun _ => ApiOutcome.ok }

/-- A client oracle on which the like of mention 101 raises
`TooManyRequests` with a reset time of 5 seconds and everything else
succeeds. -/
def envC6 : Env :=
  { likeRes := fun i =>
      if i = 101 then ApiOutcome.rateLimited (some 5) else ApiOutcome.ok,
    replyRes := fun _ => ApiOutcome.ok }

/-- A client oracle on which the like of mention 101 raises
`TooManyRequests`, every other like succeeds, and every reply raises a
non-rate-limit exception. -/
def envLikeRL : Env :=
  { likeRes := fun i =>
      if i = 101 then ApiOutcome.rateLimited none else ApiOutcome.ok,
    replyRes := fun _ => ApiOutcome.otherError }

/-- A client oracle on which every like succeeds and every reply raises
a non-rate-limit exception. -/
def envReplyFail : Env :=
  { likeRes := fun _ => ApiOutcome.ok, replyRes := fun _ => ApiOutcome.otherError }

/-- A state-file parse oracle returning a fixed record. -/
def parseConst : String → Option (Option Nat) := fun _ => some (some 42)

/-- Number of reply calls in a trace segment whose outcome is success:
exactly the replies that execute `actions += 1` in the source. -/
def successCount (env : Env) (l : List Mention) : Nat :=
  l.countP (fun m => decide (env.replyRes m.id = ApiOutcome.ok))

theorem runActions_actions_spec (env : Env) (me maxA : Nat) :
    ∀ tws acts, (runActions env me maxA tws acts).actions
      = acts + successCount env (runActions env me maxA tws acts).replyAttempts := by
  intro tws
  induction tws with
  | nil => intro acts; simp [runActions, RunLog.empty, successCount]
  | cons tw rest ih =>
    intro acts
    by_cases hb : acts ≥ maxA
    · simp [runActions, hb, RunLog.empty, successCount]
    · by_cases hself : tw.authorId = me
      · simpa [runActions, hb, hself] using ih acts
      · rcases hl : env.likeRes tw.id with _ | r | _
        · rcases hr : env.replyRes tw.id with _ | r2 | _
          · have := ih (acts + 1)
            simp [runActions, hb, hself, hl, hr, successCount,
              List.countP_cons] at this ⊢
            omega
          · simp [runActions, hb, hself, hl, hr, successCount,
              List.countP_cons]
          · have := ih acts
            simp [runActions, hb, hself, hl, hr, successCount,
              List.countP_cons] at this ⊢
            omega
        · simp [runActions, hb, hself, hl, successCount, RunLog.empty]
        · rcases hr : env.replyRes tw.id with _ | r2 | _
          · have := ih (acts + 1)
            simp [runActions, hb, hself, hl, hr, successCount,
              List.countP_cons] at this ⊢
            omega
          · simp [runActions, hb, hself, hl, hr, successCount,
              List.countP_cons]
          · have := ih acts
            simp [runActions, hb, hself, hl, hr, successCount,
              List.countP_cons] at this ⊢
            omega

theorem runActions_actions_le (env : Env) (me maxA : Nat) :
    ∀ tws acts, acts ≤ maxA → (runActions env me maxA tws acts).actions ≤ maxA := by
  intro tws
  induction tws with
  | nil => intro acts h; simpa [runActions, RunLog.empty] using h
  | cons tw rest ih =>
    intro acts h
    by_cases hb : acts ≥ maxA
    · simpa [runActions, hb, RunLog.empty] using h
    · by_cases hself : tw.authorId = me
      · simpa [runActions, hb, hself] using ih acts h
      · rcases hl : env.likeRes tw.id with _ | r | _
        · rcases hr : env.replyRes tw.id with _ | r2 | _
          · simpa [runActions, hb, hself, hl, hr] using ih (acts + 1) (by omega)
          · simpa [runActions, hb, hself, hl, hr, RunLog.empty] using h
          · simpa [runActions, hb, hself, hl, hr] using ih acts h
        · simpa [runActions, hb, hself, hl, RunLog.empty] using h
        · rcases hr : env.replyRes tw.id with _ | r2 | _
          · simpa [runActions, hb, hself, hl, hr] using ih (acts + 1) (by omega)
          · simpa [runActions, hb, hself, hl, hr, RunLog.empty] using h
          · simpa [runActions, hb, hself, hl, hr] using ih acts h

theorem runActions_not_self (env : Env) (me maxA : Nat) :
    ∀ tws acts m,
      m ∈ (runActions env me maxA tws acts).likeAttempts ∨
      m ∈ (runActions env me maxA tws acts).replyAttempts →
      m.authorId ≠ me := by
  intro tws
  induction tws with
  | nil => intro acts m hm; simp [runActions, RunLog.empty] at hm
  | cons tw rest ih =>
    intro acts m hm
    by_cases hb : acts ≥ maxA
    · simp [runActions, hb, RunLog.empty] at hm
    · by_cases hself : tw.authorId = me
      · exact ih acts m (by simpa [runActions, hb, hself] using hm)
      · rcases hl : env.likeRes tw.id with _ | r | _
        · rcases hr : env.replyRes tw.id with _ | r2 | _
          · simp [runActions, hb, hself, hl, hr] at hm
            rcases hm with (rfl | h) | (rfl | h)
            · exact hself
            · exact ih (acts + 1) m (Or.inl h)
            · exact hself
            · exact ih (acts + 1) m (Or.inr h)
          · simp [runActions, hb, hself, hl, hr] at hm
            subst hm
            exact hself
          · simp [runActions, hb, hself, hl, hr] at hm
            rcases hm with (rfl | h) | (rfl | h)
            · exact hself
            · exact ih acts m (Or.inl h)
            · exact hself
            · exact ih acts m (Or.inr h)
        · simp [runActions, hb, hself, hl] at hm
          subst hm; exact hself
        · rcases hr : env.replyRes tw.id with _ | r2 | _
          · simp [runActions, hb, hself, hl, hr] at hm
            rcases hm with (rfl | h) | (rfl | h)
            · exact hself
            · exact ih (acts + 1) m (Or.inl h)
            · exact hself
            · exact ih (acts + 1) m (Or.inr h)
          · simp [runActions, hb, hself, hl, hr] at hm
            subst hm
            exact hself
          · simp [runActions, hb, hself, hl, hr] at hm
            rcases hm with (rfl | h) | (rfl | h)
            · exact hself
            · exact ih acts m (Or.inl h)
            · exact hself
            · exact ih acts m (Or.inr h)

theorem runActions_pauses (env : Env) (me maxA : Nat) :
    ∀ tws acts p, p ∈ (runActions env me maxA tws acts).pauses → p = 60 := by
  intro tws
  induction tws with
  | nil => intro acts p hp; simp [runActions, RunLog.empty] at hp
  | cons tw rest ih =>
    intro acts p hp
    by_cases hb : acts ≥ maxA
    · simp [runActions, hb, RunLog.empty] at hp
    · by_cases hself : tw.authorId = me
      · exact ih acts p (by simpa [runActions, hb, hself] using hp)
      · rcases hl : env.likeRes tw.id with _ | r | _
        · rcases hr : env.replyRes tw.id with _ | r2 | _
          · exact ih (acts + 1) p (by simpa [runActions, hb, hself, hl, hr] using hp)
          · simpa [runActions, hb, hself, hl, hr] using hp
          · exact ih acts p (by simpa [runActions, hb, hself, hl, hr] using hp)
        · simpa [runActions, hb, hself, hl] using hp
        · rcases hr : env.replyRes tw.id with _ | r2 | _
          · exact ih (acts + 1) p (by simpa [runActions, hb, hself, hl, hr] using hp)
          · simpa [runActions, hb, hself, hl, hr] using hp
          · exact ih acts p (by simpa [runActions, hb, hself, hl, hr] using hp)

theorem runActions_like_all (env : Env) (me maxA : Nat)
    (hreply : ∀ i, env.replyRes i = ApiOutcome.otherError)
    (hlike : ∀ i r, env.likeRes i ≠ ApiOutcome.rateLimited r)
    (hmax : 0 < maxA) :
    ∀ tws m, m ∈ tws → m.authorId ≠ me →
      m ∈ (runActions env me maxA tws 0).likeAttempts := by
  intro tws
  induction tws with
  | nil => intro m hm; simp at hm
  | cons tw rest ih =>
    intro m hm hne
    have hb : ¬ 0 ≥ maxA := by omega
    by_cases hself : tw.authorId = me
    · have hmr : m ∈ rest := by
        rcases List.mem_cons.mp hm with rfl | h
        · exact absurd hself hne
        · exact h
      simpa [runActions, hb, hself] using ih m hmr hne
    · rcases hl : env.likeRes tw.id with _ | r | _
      · have hr := hreply tw.id
        rcases List.mem_cons.mp hm with rfl | h
        · simp [runActions, hb, hself, hl, hr]
        · simp [runActions, hb, hself, hl, hr]
          exact Or.inr (ih m h hne)
      · exact absurd hl (hlike tw.id r)
      · have hr := hreply tw.id
        rcases List.mem_cons.mp hm with rfl | h
        · simp [runActions, hb, hself, hl, hr]
        · simp [runActions, hb, hself, hl, hr]
          exact Or.inr (ih m h hne)

/-- C1: assuming the mention fetch returns only mentions with ids greater
than the supplied since cursor (which is supplied exactly when the loaded
value is truthy), no cycle of `handle_mentions` ever writes a
`last_mention_id` smaller than the one it loaded, so the persisted cursor
is monotonically non-decreasing across any sequence of cycles. -/
theorem handle_mentions_cursor_monotone
    (env : Env) (fetch : FetchResult) (st : Option Nat)
    (me maxA : Nat) (first : Bool)
    (hfetch : ∀ tws, fetch = FetchResult.page tws → optTruthy st = true →
      ∀ m ∈ tws, st.getD 0 < m.id) :
    ∀ c v, st = some c →
      (handle_mentions env fetch st me maxA first).1 = some v → c ≤ v := by
  intro c v hst hv
  cases fetch with
  | rateLimited r => simp [handle_mentions] at hv
  | error => simp [handle_mentions] at hv
  | page tws =>
    cases tws with
    | nil => simp [handle_mentions, RunLog.empty] at hv
    | cons t0 rest =>
      have hv0 : v = t0.id := by
        by_cases hfr : (first && !optTruthy st) = true <;>
          simp [handle_mentions, hfr] at hv <;> omega
      subst hv0
      subst hst
      by_cases hc : c = 0
      · subst hc; exact Nat.zero_le _
      · have ht : optTruthy (some c) = true := by simp [optTruthy, hc]
        have := hfetch (t0 :: rest) rfl ht t0 (List.mem_cons_self _ _)
        simpa [Option.getD] using Nat.le_of_lt this

theorem handle_mentions_cursor_monotone_witness : (100 : Nat) ≤ 103 :=
  handle_mentions_cursor_monotone envAllOk
    (FetchResult.page [⟨103, 7⟩, ⟨102, 7⟩, ⟨101, 7⟩]) (some 100) 1 1 false
    (by
      intro tws h ht m hm
      cases h
      simp only [List.mem_cons, List.not_mem_nil, or_false] at hm
      rcases hm with rfl | rfl | rfl <;> decide)
    100 103 rfl rfl

/-- C2: on a non-empty fetched page, if the stored cursor is falsy (empty)
and the `first_run` flag is true, `handle_mentions` performs no like and
no reply: it only writes the newest fetched mention id as the new cursor
and returns with an empty action trace. -/
theorem handle_mentions_first_run_suppression
    (env : Env) (st : Option Nat) (me maxA : Nat)
    (t0 : Mention) (rest : List Mention)
    (hst : optTruthy st = false) :
    handle_mentions env (FetchResult.page (t0 :: rest)) st me maxA true
      = (some t0.id, RunLog.empty 0) := by
  simp [handle_mentions, hst]

theorem handle_mentions_first_run_suppression_witness :
    handle_mentions envAllOk (FetchResult.page [⟨103, 7⟩, ⟨102, 7⟩, ⟨101, 7⟩])
      none 1 1 true = (some 103, RunLog.empty 0) :=
  handle_mentions_first_run_suppression envAllOk none 1 1
    ⟨103, 7⟩ [⟨102, 7⟩, ⟨101, 7⟩] rfl

/-- C3: within any single cycle, for every fetched page and every pattern
of like/reply outcomes, at most `MAX_ACTIONS_PER_RUN` replies succeed,
and the `actions` counter equals exactly the number of successful reply
calls (failed likes and failed replies never increment it). -/
theorem handle_mentions_action_budget
    (env : Env) (fetch : FetchResult) (st : Option Nat)
    (me maxA : Nat) (first : Bool) :
    successCount env (handle_mentions env fetch st me maxA first).2.replyAttempts ≤ maxA
    ∧ (handle_mentions env fetch st me maxA first).2.actions
      = successCount env (handle_mentions env fetch st me maxA first).2.replyAttempts := by
  cases fetch with
  | rateLimited r => simp [handle_mentions, successCount]
  | error => simp [handle_mentions, RunLog.empty, successCount]
  | page tws =>
    cases tws with
    | nil => simp [handle_mentions, RunLog.empty, successCount]
    | cons t0 rest =>
      have h1 := runActions_actions_spec env me maxA ((t0 :: rest).reverse) 0
      have h2 := runActions_actions_le env me maxA ((t0 :: rest).reverse) 0 (Nat.zero_le _)
      by_cases hfr : (first && !optTruthy st) = true
      · simp [handle_mentions, hfr, RunLog.empty, successCount]
      · simp [handle_mentions, hfr]
        simp only [List.reverse_cons] at h1 h2
        omega

/-- C4: for every cursor and every fetched page, `handle_mentions` never
performs a like or a reply on a mention whose author id equals the bot
account id: every mention appearing in the like or reply trace has a
different author id. -/
theorem handle_mentions_skips_self
    (env : Env) (fetch : FetchResult) (st : Option Nat)
    (me maxA : Nat) (first : Bool) (m : Mention)
    (hm : m ∈ (handle_mentions env fetch st me maxA first).2.likeAttempts ∨
          m ∈ (handle_mentions env fetch st me maxA first).2.replyAttempts) :
    m.authorId ≠ me := by
  cases fetch with
  | rateLimited r => simp [handle_mentions] at hm
  | error => simp [handle_mentions, RunLog.empty] at hm
  | page tws =>
    cases tws with
    | nil => simp [handle_mentions, RunLog.empty] at hm
    | cons t0 rest =>
      by_cases hfr : (first && !optTruthy st) = true
      · simp [handle_mentions, hfr, RunLog.empty] at hm
      · exact runActions_not_self env me maxA ((t0 :: rest).reverse) 0 m
          (by simpa [handle_mentions, hfr] using hm)

theorem handle_mentions_skips_self_witness : (⟨101, 7⟩ : Mention).authorId ≠ 1 :=
  handle_mentions_skips_self envAllOk (FetchResult.page [⟨102, 7⟩, ⟨101, 7⟩])
    (some 100) 1 1 false ⟨101, 7⟩ (Or.inl (by decide))

/-- C5: a rate-limited like produces no reply call on that mention and no
like or reply on any remaining mention of the page; a rate-limited reply
halts all further processing likewise; and for every non-empty fetched
page the cursor write after the loop is unconditional: `handle_mentions`
always persists the newest fetched mention id. -/
theorem handle_mentions_rate_limit_halts :
    (∀ (env : Env) (me maxA : Nat) (m : Mention) (l2 : List Mention)
        (acts : Nat) (r : Option Nat),
        acts < maxA → m.authorId ≠ me →
        env.likeRes m.id = ApiOutcome.rateLimited r →
        runActions env me maxA (m :: l2) acts
          = { likeAttempts := [m], replyAttempts := [], actions := acts,
              pauses := [60] })
    ∧ (∀ (env : Env) (me maxA : Nat) (m : Mention) (l2 : List Mention)
        (acts : Nat) (r : Option Nat),
        acts < maxA → m.authorId ≠ me →
        (env.likeRes m.id = ApiOutcome.ok ∨
          env.likeRes m.id = ApiOutcome.otherError) →
        env.replyRes m.id = ApiOutcome.rateLimited r →
        runActions env me maxA (m :: l2) acts
          = { likeAttempts := [m], replyAttempts := [m], actions := acts,
              pauses := [60] })
    ∧ (∀ (env : Env) (st : Option Nat) (me maxA : Nat) (first : Bool)
        (t0 : Mention) (rest : List Mention),
        (handle_mentions env (FetchResult.page (t0 :: rest)) st me maxA first).1
          = some t0.id) := by
  refine ⟨?_, ?_, ?_⟩
  · intro env me maxA m l2 acts r hb hself hl
    simp [runActions, Nat.not_le.mpr hb, hself, hl]
  · intro env me maxA m l2 acts r hb hself hl hr
    rcases hl with hl | hl <;>
      simp [runActions, Nat.not_le.mpr hb, hself, hl, hr]
  · intro env st me maxA first t0 rest
    by_cases hfr : (first && !optTruthy st) = true <;>
      simp [handle_mentions, hfr]

theorem handle_mentions_rate_limit_halts_witness :
    runActions envC6 1 1 [⟨101, 7⟩, ⟨102, 7⟩] 0
      = { likeAttempts := [⟨101, 7⟩], replyAttempts := [], actions := 0,
          pauses := [60] } :=
  handle_mentions_rate_limit_halts.1 envC6 1 1 ⟨101, 7⟩ [⟨102, 7⟩] 0 (some 5)
    (by decide) (by decide) rfl

/-- C6 counterexample: on the scenario of the claim (like on mention 101,
the oldest of page [103, 102, 101], raises a rate limit whose reset time
is 5 seconds), the cycle pauses exactly 60 seconds, not a duration in
the 5 to 8 second range computed from the reset time; the source ignores
the reset time entirely (`time.sleep(60)` in every rate-limit handler). -/
theorem rate_limit_pause_counterexample :
    (handle_mentions envC6 (FetchResult.page [⟨103, 7⟩, ⟨102, 7⟩, ⟨101, 7⟩])
        (some 100) 1 1 false).2.pauses = [60]
    ∧ ((handle_mentions envC6 (FetchResult.page [⟨103, 7⟩, ⟨102, 7⟩, ⟨101, 7⟩])
        (some 100) 1 1 false).2.pauses.all
          (fun p => decide (p < 5 ∨ 8 < p)) = true) := by decide

/-- C6 (amended): every rate-limit pause performed by a cycle of
`handle_mentions` is exactly 60 seconds, for fetch, like and reply
alike; the reset time carried by the rate-limit signal is ignored and no
clamping to a floor or ceiling takes place. -/
theorem rate_limit_pause_constant
    (env : Env) (fetch : FetchResult) (st : Option Nat)
    (me maxA : Nat) (first : Bool) :
    ∀ p ∈ (handle_mentions env fetch st me maxA first).2.pauses, p = 60 := by
  intro p hp
  cases fetch with
  | rateLimited r => simpa [handle_mentions] using hp
  | error => simp [handle_mentions, RunLog.empty] at hp
  | page tws =>
    cases tws with
    | nil => simp [handle_mentions, RunLog.empty] at hp
    | cons t0 rest =>
      by_cases hfr : (first && !optTruthy st) = true
      · simp [handle_mentions, hfr, RunLog.empty] at hp
      · exact runActions_pauses env me maxA ((t0 :: rest).reverse) 0 p
          (by simpa [handle_mentions, hfr] using hp)

theorem rate_limit_pause_constant_witness : (60 : Nat) = 60 :=
  rate_limit_pause_constant envC6
    (FetchResult.page [⟨103, 7⟩, ⟨102, 7⟩, ⟨101, 7⟩]) (some 100) 1 1 false
    60 (by decide)

/-- C7 (code bug): for every pattern of tick exceptions, the flag passed
by `main` in src/main.py is false on every tick — in particular on the
very first — because `first_loop` is set to False before the loop, so
the first-run suppression branch of `handle_mentions` is unreachable
from `main`; `bot_loop` in src/app.py passes true on the very first
tick, and thereafter the flag obeys the recurrence of the loop body: it
becomes false after a tick that completes, and keeps its value after a
tick that raises (the `except` path skips `first = False`). -/
theorem poll_loop_first_run_flag :
    (∀ (raises : Nat → Bool) (n : Nat), mainFlag raises n = false)
    ∧ (∀ raises : Nat → Bool, botLoopFlag raises 0 = true)
    ∧ (∀ (raises : Nat → Bool) (n : Nat),
        botLoopFlag raises (n + 1)
          = if raises n then botLoopFlag raises n else false) := by
  refine ⟨?_, fun _ => rfl, fun _ _ => rfl⟩
  intro raises n
  induction n with
  | zero => rfl
  | succ n ih => simp [mainFlag, nextFlag, ih]

/-- C8: if the fetch raises (rate-limit or any other error) or returns an
empty page, the cycle performs no like and no reply and never calls
`save_state`, so the persisted cursor is unchanged. -/
theorem handle_mentions_failed_fetch_noop
    (env : Env) (st : Option Nat) (me maxA : Nat) (first : Bool)
    (fetch : FetchResult)
    (h : (∃ r, fetch = FetchResult.rateLimited r) ∨
      fetch = FetchResult.error ∨ fetch = FetchResult.page []) :
    (handle_mentions env fetch st me maxA first).1 = none
    ∧ (handle_mentions env fetch st me maxA first).2.likeAttempts = []
    ∧ (handle_mentions env fetch st me maxA first).2.replyAttempts = []
    ∧ (handle_mentions env fetch st me maxA first).2.actions = 0 := by
  rcases h with ⟨r, rfl⟩ | rfl | rfl <;> simp [handle_mentions, RunLog.empty]

theorem handle_mentions_failed_fetch_noop_witness :
    (handle_mentions envAllOk FetchResult.error (some 100) 1 1 false).1 = none
    ∧ (handle_mentions envAllOk FetchResult.error (some 100) 1 1 false).2.likeAttempts = []
    ∧ (handle_mentions envAllOk FetchResult.error (some 100) 1 1 false).2.replyAttempts = []
    ∧ (handle_mentions envAllOk FetchResult.error (some 100) 1 1 false).2.actions = 0 :=
  handle_mentions_failed_fetch_noop envAllOk (some 100) 1 1 false
    FetchResult.error (Or.inr (Or.inl rfl))

/-- C9: `load_state` is total (never raises): it returns the
`last_mention_id` field of the persisted record when the file exists and
parses, and the empty default when the file is absent, unreadable, or
malformed. -/
theorem load_state_total_spec
    (parse : String → Option (Option Nat)) (fs : FileState) :
    (∀ s d, fs = FileState.content s → parse s = some d →
      load_state parse fs = d)
    ∧ ((fs = FileState.absent ∨ fs = FileState.unreadable ∨
        ∃ s, fs = FileState.content s ∧ parse s = none) →
      load_state parse fs = none) := by
  constructor
  · intro s d h hp; subst h; simp [load_state, hp]
  · intro h
    rcases h with rfl | rfl | ⟨s, rfl, hp⟩
    · rfl
    · rfl
    · simp [load_state, hp]

theorem load_state_total_spec_witness :
    load_state parseConst (FileState.content "x") = some 42 :=
  (load_state_total_spec parseConst (FileState.content "x")).1 "x" (some 42) rfl rfl

/-- C10 counterexample: with `MAX_ACTIONS_PER_RUN = 1` and the oracle
`envLikeRL` (every reply raises a non-rate-limit error, so every reply
attempt of the cycle — there are none — fails with a non-rate-limit
error; the like of mention 101 is rate-limited), mention 102 is a
non-self mention of the fetched page on which no like is ever
attempted: a rate-limited like halts the cycle before later mentions. -/
theorem like_attempts_counterexample :
    (handle_mentions envLikeRL (FetchResult.page [⟨102, 7⟩, ⟨101, 7⟩])
        (some 100) 1 1 false).2.replyAttempts = []
    ∧ (⟨102, 7⟩ : Mention) ∈ ([⟨102, 7⟩, ⟨101, 7⟩] : List Mention)
    ∧ (⟨102, 7⟩ : Mention).authorId ≠ 1
    ∧ (⟨102, 7⟩ : Mention) ∉
        (handle_mentions envLikeRL (FetchResult.page [⟨102, 7⟩, ⟨101, 7⟩])
          (some 100) 1 1 false).2.likeAttempts := by decide

/-- C10 (amended): provided additionally that no like call is
rate-limited, if every reply fails with a non-rate-limit error then
`handle_mentions` attempts a like on every non-self mention of the
fetched page, even with a positive `MAX_ACTIONS_PER_RUN` as small as 1:
the number of like calls in a cycle is not bounded by the action
budget. -/
theorem like_attempts_unbounded
    (env : Env) (st : Option Nat) (me maxA : Nat)
    (t0 : Mention) (rest : List Mention)
    (hreply : ∀ i, env.replyRes i = ApiOutcome.otherError)
    (hlike : ∀ i r, env.likeRes i ≠ ApiOutcome.rateLimited r)
    (hmax : 0 < maxA) :
    ∀ m ∈ (t0 :: rest), m.authorId ≠ me →
      m ∈ (handle_mentions env (FetchResult.page (t0 :: rest))
        st me maxA false).2.likeAttempts := by
  intro m hm hne
  have hmr : m ∈ (t0 :: rest).reverse := List.mem_reverse.mpr hm
  simpa [handle_mentions] using
    runActions_like_all env me maxA hreply hlike hmax ((t0 :: rest).reverse) m hmr hne

theorem like_attempts_unbounded_witness :
    (⟨102, 7⟩ : Mention) ∈ (handle_mentions envReplyFail
      (FetchResult.page [⟨102, 7⟩, ⟨101, 7⟩]) (some 100) 1 1
      false).2.likeAttempts :=
  like_attempts_unbounded envReplyFail (some 100) 1 1 ⟨102, 7⟩ [⟨101, 7⟩]
    (fun _ => rfl) (fun i r h => by simp [envReplyFail] at h) (by decide)
    ⟨102, 7⟩ (by decide) (by decide)
